import Mathlib

/-!
Verification of the validation + partition-path derivation engine of the
rideshare streaming repository (src/event_processor/lambda_function.py and
src/event_generator/event_generator.py), as a shallow embedding in Lean 4.

Python runtime values that can appear in a decoded JSON event record are
embedded as `PyVal`; an event record (a Python dict) is an association list
of field name to value.  Machine floats are modelled as rationals: every
comparison the code performs on them (equality with 0, order against 0)
agrees with the rational semantics.  `datetime.fromisoformat` is an external
standard-library function, so the development is parametric in the predicate
`iso : String → Bool` that tells which timestamp strings parse.
-/

/-- A Python value as it can occur in a decoded JSON record, plus `pyDict`
for whole records (needed to talk about what `validate_event` returns). -/
inductive PyVal where
  | pyStr (s : String)
  | pyBool (b : Bool)
  | pyInt (n : Int)
  | pyFloat (q : ℚ)
  | pyDict (entries : List (String × PyVal))

/-- An event record: a Python dict decoded from JSON, as an association list. -/
abbrev Event := List (String × PyVal)

/-- Python dict membership / item access: first (unique) binding of a key. -/
def pyGet : Event → String → Option PyVal
  | [], _ => none
  | (k, v) :: rest, f => if k = f then some v else pyGet rest f

/-- Total item access `event[f]`, used by the code only after the presence
check has established the field exists (Python would raise KeyError). -/
def dictGet (e : Event) (f : String) : PyVal :=
  match pyGet e f with
  | some v => v
  | none => .pyStr ""

/-- The expected primitive kind of a required field
(lambda_function.py lines 25-34): `str`, or the pair `(int, float)`. -/
inductive FieldKind where
  | fStr
  | fNum
deriving DecidableEq

/-- REQUIRED_FIELDS of lambda_function.py lines 25-34, in dict insertion
order (the order the validation loop iterates in). -/
def REQUIRED_FIELDS : List (String × FieldKind) :=
  [("event_type", .fStr), ("trip_id", .fStr), ("driver_id", .fStr),
   ("city", .fStr), ("timestamp", .fStr), ("fare_amount", .fNum),
   ("currency_code", .fStr), ("currency_symbol", .fStr)]

/-- Python `isinstance(v, str)` / `isinstance(v, (int, float))`.
In Python `bool` is a subclass of `int`, so a boolean passes the
`(int, float)` check. -/
def isinstanceOf (v : PyVal) : FieldKind → Bool
  | .fStr => match v with
    | .pyStr _ => true
    | _ => false
  | .fNum => match v with
    | .pyBool _ => true
    | .pyInt _ => true
    | .pyFloat _ => true
    | _ => false

/-- The validator's error taxonomy (the distinct raise sites of
lambda_function.py lines 40-66, keyed by the spec's error-kind names). -/
inductive VErr where
  | missingField (f : String)
  | typeMismatch (f : String)
  | invalidEnum
  | invalidFormat (f : String)
  | businessRule
deriving DecidableEq

/-- The presence-and-type loop of validate_event (lines 41-45): for each
required field in order, first the membership test, then the isinstance
test; the first failure raises. -/
def checkFields (e : Event) : List (String × FieldKind) → Option VErr
  | [] => none
  | (f, k) :: rest =>
    match pyGet e f with
    | none => some (.missingField f)
    | some v => if isinstanceOf v k then checkFields e rest else some (.typeMismatch f)

/-- Python `v == s` for a string literal `s`: true only when `v` is a string
with the same characters (a non-string compares unequal, it does not raise). -/
def pyEqStr (v : PyVal) (s : String) : Bool :=
  match v with
  | .pyStr t => t = s
  | _ => false

/-- Python `event["event_type"] in {"trip_start", "trip_end"}` (line 47). -/
def inEventTypes (v : PyVal) : Bool :=
  pyEqStr v "trip_start" || pyEqStr v "trip_end"

/-- The numeric value of a Python number (`bool` counts as 0 or 1, as in
Python arithmetic and comparisons).  Only reached after the type check, so
the non-numeric branch is unreachable there. -/
def numArg : PyVal → ℚ
  | .pyBool b => if b then 1 else 0
  | .pyInt n => (n : ℚ)
  | .pyFloat q => q
  | _ => 0

/-- The string payload of a value.  Only reached after the type check has
established the value is a string. -/
def strArg : PyVal → String
  | .pyStr s => s
  | _ => ""

/-- One character of the regex class `[a-f0-9]`. -/
def hexLower (c : Char) : Bool :=
  (decide ('0' ≤ c) && decide (c ≤ '9')) || (decide ('a' ≤ c) && decide (c ≤ 'f'))

/-- Consume exactly `n` characters of the class `[a-f0-9]`, returning the
rest of the input. -/
def hexRun : Nat → List Char → Option (List Char)
  | 0, rest => some rest
  | _ + 1, [] => none
  | n + 1, c :: rest => if hexLower c then hexRun n rest else none

/-- The body of UUID_REGEX (line 36):
`[a-f0-9]{8}-[a-f0-9]{4}-[a-f0-9]{4}-[a-f0-9]{4}-[a-f0-9]{12}`
matched against the whole character list. -/
def uuidBody (cs : List Char) : Bool :=
  match hexRun 8 cs with
  | some ('-' :: r1) =>
    match hexRun 4 r1 with
    | some ('-' :: r2) =>
      match hexRun 4 r2 with
      | some ('-' :: r3) =>
        match hexRun 4 r3 with
        | some ('-' :: r4) =>
          match hexRun 12 r4 with
          | some [] => true
          | _ => false
        | _ => false
      | _ => false
    | _ => false
  | _ => false

/-- Python `re.match` with a pattern anchored by `^` and `$`: `$` (without
re.MULTILINE) also matches just before a single trailing newline, so the
whole string matches the body, or the string minus a final newline does. -/
def reMatchDollar (body : List Char → Bool) (cs : List Char) : Bool :=
  body cs ||
    (match cs.getLast? with
     | some c => if c = '\n' then body cs.dropLast else false
     | none => false)

/-- `UUID_REGEX.match(s)` truthiness (lines 36 and 50). -/
def uuidMatch (s : String) : Bool :=
  reMatchDollar uuidBody s.data

/-- One character of the regex class `[A-Z]`. -/
def upperAZ (c : Char) : Bool :=
  decide ('A' ≤ c) && decide (c ≤ 'Z')

/-- The body of CURRENCY_REGEX (line 37): `[A-Z]{3}` against the whole list. -/
def currencyBody : List Char → Bool
  | [a, b, c] => upperAZ a && upperAZ b && upperAZ c
  | _ => false

/-- `CURRENCY_REGEX.match(s)` truthiness (lines 37 and 58). -/
def currencyMatch (s : String) : Bool :=
  reMatchDollar currencyBody s.data

/-- validate_event (lambda_function.py lines 40-66), with the external
`datetime.fromisoformat` abstracted as the predicate `iso` (true on the
strings that parse).  Raised exceptions become `Except.error`; the function
ends with `return True`, i.e. the Python value `True`. -/
def validate_event (iso : String → Bool) (e : Event) : Except VErr PyVal :=
  match checkFields e REQUIRED_FIELDS with
  | some err => .error err
  | none =>
    if inEventTypes (dictGet e "event_type") = false then .error .invalidEnum
    else if uuidMatch (strArg (dictGet e "trip_id")) = false then
      .error (.invalidFormat "trip_id")
    else if iso (strArg (dictGet e "timestamp")) = false then
      .error (.invalidFormat "timestamp")
    else if currencyMatch (strArg (dictGet e "currency_code")) = false then
      .error (.invalidFormat "currency_code")
    else if pyEqStr (dictGet e "event_type") "trip_start"
        && decide (numArg (dictGet e "fare_amount") ≠ 0) then
      .error .businessRule
    else if pyEqStr (dictGet e "event_type") "trip_end"
        && decide (numArg (dictGet e "fare_amount") ≤ 0) then
      .error .businessRule
    else .ok (.pyBool true)

/-- One required field is present and of its expected kind. -/
def fieldOk (e : Event) (ft : String × FieldKind) : Bool :=
  match pyGet e ft.1 with
  | some v => isinstanceOf v ft.2
  | none => false

/-- Check 1 of §4.1 as realised by the loop of lines 41-45: every required
field present with the expected primitive kind. -/
def check_presence_type (e : Event) : Bool :=
  REQUIRED_FIELDS.all (fieldOk e)

/-- Check 2 of §4.1 (line 47): event_type in the two-element domain. -/
def check_event_type (e : Event) : Bool :=
  inEventTypes (dictGet e "event_type")

/-- Check 3 of §4.1 (line 50): trip_id matches the UUID pattern. -/
def check_trip_id (e : Event) : Bool :=
  uuidMatch (strArg (dictGet e "trip_id"))

/-- Check 4 of §4.1 (lines 53-56): timestamp parses with fromisoformat. -/
def check_timestamp (iso : String → Bool) (e : Event) : Bool :=
  iso (strArg (dictGet e "timestamp"))

/-- Check 5 of §4.1 (line 58): currency_code matches `[A-Z]{3}`. -/
def check_currency (e : Event) : Bool :=
  currencyMatch (strArg (dictGet e "currency_code"))

/-- Check 6 of §4.1 (lines 61-64): the fare business rule. -/
def check_business (e : Event) : Bool :=
  !(pyEqStr (dictGet e "event_type") "trip_start"
      && decide (numArg (dictGet e "fare_amount") ≠ 0)) &&
  !(pyEqStr (dictGet e "event_type") "trip_end"
      && decide (numArg (dictGet e "fare_amount") ≤ 0))

/-- A concrete fromisoformat instance used for concrete evaluations: accepts
exactly the timestamp strings of the sample records below (all of them of
the shape isoformat emits, which every Python version parses). -/
def iso0 : String → Bool := fun s => s = "2024-03-07T12:00:00"

/-- A fully valid sample record. -/
def eValid : Event :=
  [("event_type", .pyStr "trip_start"),
   ("trip_id", .pyStr "0123abcd-0000-4000-8000-000000000000"),
   ("driver_id", .pyStr "d7"),
   ("city", .pyStr "London"),
   ("timestamp", .pyStr "2024-03-07T12:00:00"),
   ("fare_amount", .pyInt 0),
   ("currency_code", .pyStr "GBP"),
   ("currency_symbol", .pyStr "£")]

example : validate_event iso0 eValid = .ok (.pyBool true) := rfl

example : checkFields eValid REQUIRED_FIELDS = none := rfl

/-!
## Partition path deriver

`add_partition` (lambda_function.py lines 69-100) extracts the partition
triple with `re.search(r"year=(\d+)/month=(\d+)/day=(\d+)", key)`, and the
handler (line 126) rewrites the key with
`key.replace('raw/', 'curated/').replace('.json', '.parquet')`.
Together they realise the spec's `derive_curated_location` contract (§4.2).
Keys are handled as character lists.
-/

/-- Strip a literal off the front of the input: `some rest` on success. -/
def dropPfx? : List Char → List Char → Option (List Char)
  | [], s => some s
  | _ :: _, [] => none
  | p :: ps, c :: cs => if c = p then dropPfx? ps cs else none

/-- Does the input start with the given literal. -/
def hasPfx (p s : List Char) : Bool :=
  (dropPfx? p s).isSome

/-- Does the pattern occur as a contiguous substring (at any position). -/
def containsSub (p : List Char) : List Char → Bool
  | [] => hasPfx p []
  | c :: rest => hasPfx p (c :: rest) || containsSub p rest

/-- Is the first list a suffix of the second. -/
def isSfx (t : List Char) : List Char → Bool
  | [] => t.isEmpty
  | c :: rest => (t == c :: rest) || isSfx t rest

/-- The longest leading run of regex `\d` characters (decimal digits). -/
def takeDigits : List Char → List Char
  | [] => []
  | c :: rest => if c.isDigit then c :: takeDigits rest else []

/-- What is left after the longest leading digit run. -/
def dropDigits : List Char → List Char
  | [] => []
  | c :: rest => if c.isDigit then dropDigits rest else c :: rest

/-- Python `int` applied to a captured digit run: its decimal value. -/
def digitsToNat (cs : List Char) : Nat :=
  cs.foldl (fun a c => 10 * a + (c.toNat - 48)) 0

/-- The literal part of the partition regex before the year digits. -/
def yearLit : List Char := "year=".data

/-- The literal part of the partition regex before the month digits. -/
def monthLit : List Char := "/month=".data

/-- The literal part of the partition regex before the day digits. -/
def dayLit : List Char := "/day=".data

/-- Match `year=(\d+)/month=(\d+)/day=(\d+)` at the start of the input,
returning the integer values of the three captures.  Each `(\d+)` takes the
maximal digit run; backtracking to a shorter run can never help, because the
following literal starts with a non-digit while every shortened run leaves a
digit in its place, so greedy-without-backtracking is the exact semantics. -/
def matchYMDAt (cs : List Char) : Option (Nat × Nat × Nat) :=
  match dropPfx? yearLit cs with
  | none => none
  | some r1 =>
    if takeDigits r1 = [] then none
    else
      match dropPfx? monthLit (dropDigits r1) with
      | none => none
      | some r2 =>
        if takeDigits r2 = [] then none
        else
          match dropPfx? dayLit (dropDigits r2) with
          | none => none
          | some r3 =>
            if takeDigits r3 = [] then none
            else some (digitsToNat (takeDigits r1), digitsToNat (takeDigits r2),
                       digitsToNat (takeDigits r3))

/-- `re.search`: try the pattern at every position, leftmost match wins
(the empty final position can never match, the pattern needs input). -/
def searchYMD : List Char → Option (Nat × Nat × Nat)
  | [] => none
  | c :: rest =>
    match matchYMDAt (c :: rest) with
    | some t => some t
    | none => searchYMD rest

/-- Recursion core for Python `replace`, structural on a fuel argument so
that it computes in the kernel; each step consumes at least one character
and one unit of fuel, so fuel `s.length` always suffices. -/
def replaceAllGo (p : Char) (ps repl : List Char) : Nat → List Char → List Char
  | _, [] => []
  | 0, s => s
  | fuel + 1, c :: rest =>
    if c = p ∧ hasPfx ps rest = true then
      repl ++ replaceAllGo p ps repl fuel (List.drop ps.length rest)
    else
      c :: replaceAllGo p ps repl fuel rest

/-- Python `s.replace(p :: ps, repl)` for a nonempty pattern: replace every
non-overlapping occurrence, scanning left to right.  (The two patterns the
code uses, "raw/" and ".json", are nonempty.) -/
def replaceAll (p : Char) (ps repl : List Char) (s : List Char) : List Char :=
  replaceAllGo p ps repl s.length s

/-- `key.replace('raw/', 'curated/').replace('.json', '.parquet')`
(lambda_function.py line 126), on character lists. -/
def curatedList (cs : List Char) : List Char :=
  replaceAll '.' "json".data ".parquet".data
    (replaceAll 'r' "aw/".data "curated/".data cs)

/-- The curated key, as a string. -/
def curated_key (key : String) : String :=
  String.mk (curatedList key.data)

/-- The deriver's error taxonomy: the ValueError of lambda_function.py
line 80 ("Partition structure not found in key"). -/
inductive PathErr where
  | malformedPath
deriving DecidableEq

/-- The spec's `derive_curated_location` contract (§4.2), as realised by
the processor: the partition triple from `add_partition`'s regex search
(lines 78-84) paired with the rewritten key of line 126. -/
def derive_curated_location (key : String) :
    Except PathErr (String × Nat × Nat × Nat) :=
  match searchYMD key.data with
  | none => .error .malformedPath
  | some (y, m, d) => .ok (curated_key key, y, m, d)

example :
    derive_curated_location "raw/year=2024/month=03/day=07/abc123_trip_start.json" =
      .ok ("curated/year=2024/month=03/day=07/abc123_trip_start.parquet", 2024, 3, 7) := rfl

example : searchYMD "foo/bar.json".data = none := rfl

example : curated_key "raw/a/raw/b.json" = "curated/a/curated/b.parquet" := rfl

/-!
## Event generator

event_generator.py lines 14-82.  Randomness is made explicit: each random
draw of `generate_trip_pair` becomes a parameter, constrained in the
theorems to the range the library call can produce.  Timestamps are
modelled in seconds (`datetime.utcnow()` as an integer `now`,
`timedelta(minutes=m)` as `60 * m`); fare floats as rationals, with
`round(x, 2)` as exact round-half-to-even on rationals.
-/

/-- CITIES (event_generator.py line 14). -/
def CITIES : List String := ["London", "New York", "Tokyo", "Paris", "Berlin"]

/-- CITY_CONFIG (event_generator.py lines 17-38): city to
(currency_code, currency_symbol), in dict insertion order. -/
def CITY_CONFIG : List (String × String × String) :=
  [("London", "GBP", "£"), ("New York", "USD", "$"), ("Tokyo", "JPY", "¥"),
   ("Paris", "EUR", "€"), ("Berlin", "EUR", "€")]

/-- `CITY_CONFIG[city]` as a lookup: the (currency_code, currency_symbol)
pair the fixed table assigns to a city, if any. -/
def lookupCity (city : String) : Option (String × String) :=
  match CITY_CONFIG.find? (fun entry => entry.1 == city) with
  | some entry => some entry.2
  | none => none

/-- A generated trip event (the dict literals of lines 60-80), with the
timestamp in seconds and the fare as a rational. -/
structure TripEvent where
  event_type : String
  trip_id : String
  driver_id : String
  city : String
  timestamp : Int
  fare_amount : ℚ
  currency_code : String
  currency_symbol : String

/-- Round a rational to the nearest integer, ties to even: the semantics of
Python 3 `round` on the exact value. -/
def roundHalfEven (q : ℚ) : ℤ :=
  if q - ⌊q⌋ < 1 / 2 then ⌊q⌋
  else if 1 / 2 < q - ⌊q⌋ then ⌊q⌋ + 1
  else if ⌊q⌋ % 2 = 0 then ⌊q⌋ else ⌊q⌋ + 1

/-- Python `round(q, 2)` on the exact value of the float. -/
def pyRound2 (q : ℚ) : ℚ :=
  (roundHalfEven (q * 100) : ℚ) / 100

/-- generate_trip_pair (event_generator.py lines 46-82) with the random
draws explicit: `trip_id` for `uuid.uuid4()`, `n` for
`random.randint(1, 100)`, `idx` for the index `random.choice` picks in
`list(CITY_CONFIG.keys())`, `now` for `datetime.utcnow()` (seconds), `dur`
for `random.randint(5, 45)` minutes, `u` for `random.uniform(5, 50)`. -/
def generate_trip_pair (trip_id : String) (n : Nat) (idx : Fin 5) (now : Int)
    (dur : Nat) (u : ℚ) : TripEvent × TripEvent :=
  let driver_id := "d" ++ toString n
  let entry := CITY_CONFIG.get ⟨idx.val, idx.isLt⟩
  let city := entry.1
  let currency_code := entry.2.1
  let currency_symbol := entry.2.2
  let start_time := now
  let end_time := now + 60 * (dur : Int)
  let fare := pyRound2 u
  ({ event_type := "trip_start", trip_id := trip_id, driver_id := driver_id,
     city := city, timestamp := start_time, fare_amount := 0,
     currency_code := currency_code, currency_symbol := currency_symbol },
   { event_type := "trip_end", trip_id := trip_id, driver_id := driver_id,
     city := city, timestamp := end_time, fare_amount := fare,
     currency_code := currency_code, currency_symbol := currency_symbol })

example : (generate_trip_pair "t" 7 ⟨1, by omega⟩ 1000 5 20).2.city = "New York" := rfl

example : lookupCity "New York" = some ("USD", "$") := rfl

/-!
## Processor handler

lambda_handler (lambda_function.py lines 103-145).  External collaborator
calls (the S3 read, the parquet conversion, the curated S3 put, the Athena
query submission) are assumed to succeed; the put to the curated store is
recorded in order.  The model takes the already URL-decoded object key and
the already JSON-decoded body.  Everything up to the first raised exception
runs; the catch-all turns any raise into a 500 result, with the writes
already performed left in place.
-/

/-- Result of one handler invocation: the returned statusCode together with
the keys written to the curated store before returning. -/
structure HandlerOutcome where
  statusCode : Nat
  curatedWrites : List String
deriving DecidableEq

/-- lambda_handler, over the abstract store: validate, write the curated
object, then extract the partition; a validation failure returns 500 with
nothing written, a partition-extraction failure returns 500 with the
curated object already written. -/
def lambda_handler_model (iso : String → Bool) (key : String) (data : Event) :
    HandlerOutcome :=
  match validate_event iso data with
  | .error _ => { statusCode := 500, curatedWrites := [] }
  | .ok _ =>
    let ck := curated_key key
    match searchYMD key.data with
    | none => { statusCode := 500, curatedWrites := [ck] }
    | some _ => { statusCode := 200, curatedWrites := [ck] }

/-!
## Helper lemmas: the presence-and-type loop
-/

/-- The loop of lines 41-45 raises nothing exactly when every required
field is present with its expected kind. -/
theorem checkFields_eq_none_iff (e : Event) (fs : List (String × FieldKind)) :
    checkFields e fs = none ↔ fs.all (fieldOk e) = true := by
  induction fs with
  | nil => simp [checkFields]
  | cons hd tl ih =>
    obtain ⟨f, k⟩ := hd
    simp only [checkFields, List.all_cons, fieldOk, Bool.and_eq_true]
    cases hg : pyGet e f with
    | none => simp
    | some v =>
      by_cases hi : isinstanceOf v k = true
      · simp [hi, ih]
      · simp [hi]

/-- Any error the loop of lines 41-45 raises is a missing-field or a
type-mismatch error. -/
theorem checkFields_some_shape (e : Event) (fs : List (String × FieldKind))
    (err : VErr) (h : checkFields e fs = some err) :
    ∃ f, err = .missingField f ∨ err = .typeMismatch f := by
  induction fs with
  | nil => simp [checkFields] at h
  | cons hd tl ih =>
    obtain ⟨f, k⟩ := hd
    cases hg : pyGet e f with
    | none =>
      simp only [checkFields, hg] at h
      exact ⟨f, Or.inl (Option.some.inj h).symm⟩
    | some v =>
      simp only [checkFields, hg] at h
      by_cases hi : isinstanceOf v k = true
      · rw [if_pos hi] at h
        exact ih h
      · rw [if_neg hi] at h
        exact ⟨f, Or.inr (Option.some.inj h).symm⟩

/-- When the presence-and-type loop passes, validate_event is exactly the
fail-fast chain of the five remaining checks. -/
theorem validate_event_checks (iso : String → Bool) (e : Event)
    (h : checkFields e REQUIRED_FIELDS = none) :
    validate_event iso e =
      (if check_event_type e = false then .error .invalidEnum
       else if check_trip_id e = false then .error (.invalidFormat "trip_id")
       else if check_timestamp iso e = false then .error (.invalidFormat "timestamp")
       else if check_currency e = false then .error (.invalidFormat "currency_code")
       else if check_business e = false then .error .businessRule
       else .ok (.pyBool true)) := by
  unfold validate_event check_event_type check_trip_id check_timestamp check_currency
    check_business
  rw [h]
  by_cases h2 : inEventTypes (dictGet e "event_type") = false
  · simp [h2]
  · simp only [if_neg h2]
    by_cases h3 : uuidMatch (strArg (dictGet e "trip_id")) = false
    · simp [h3]
    · simp only [if_neg h3]
      by_cases h4 : iso (strArg (dictGet e "timestamp")) = false
      · simp [h4]
      · simp only [if_neg h4]
        by_cases h5 : currencyMatch (strArg (dictGet e "currency_code")) = false
        · simp [h5]
        · simp only [if_neg h5]
          cases g1 : (pyEqStr (dictGet e "event_type") "trip_start"
              && decide (numArg (dictGet e "fare_amount") ≠ 0)) with
          | true => simp [g1]
          | false =>
            cases g2 : (pyEqStr (dictGet e "event_type") "trip_end"
                && decide (numArg (dictGet e "fare_amount") ≤ 0)) with
            | true => simp [g1, g2]
            | false => simp [g1, g2]

/-!
## Claim C1
-/

/-- C1: for every input record, validate_event succeeds iff all six checks
of §4.1 pass, and whenever one or more checks fail, the error produced is
the kind corresponding to the first failing check in the listed order
(presence & type, event_type domain, trip_id format, timestamp
parseability, currency_code format, business rule), and no other. -/
theorem C1_validate_fail_fast (iso : String → Bool) (e : Event) :
    ((∃ v, validate_event iso e = Except.ok v) ↔
      (check_presence_type e = true ∧ check_event_type e = true ∧
       check_trip_id e = true ∧ check_timestamp iso e = true ∧
       check_currency e = true ∧ check_business e = true)) ∧
    (check_presence_type e = false →
      ∃ f, validate_event iso e = .error (.missingField f) ∨
        validate_event iso e = .error (.typeMismatch f)) ∧
    (check_presence_type e = true → check_event_type e = false →
      validate_event iso e = .error .invalidEnum) ∧
    (check_presence_type e = true → check_event_type e = true →
      check_trip_id e = false →
      validate_event iso e = .error (.invalidFormat "trip_id")) ∧
    (check_presence_type e = true → check_event_type e = true →
      check_trip_id e = true → check_timestamp iso e = false →
      validate_event iso e = .error (.invalidFormat "timestamp")) ∧
    (check_presence_type e = true → check_event_type e = true →
      check_trip_id e = true → check_timestamp iso e = true →
      check_currency e = false →
      validate_event iso e = .error (.invalidFormat "currency_code")) ∧
    (check_presence_type e = true → check_event_type e = true →
      check_trip_id e = true → check_timestamp iso e = true →
      check_currency e = true → check_business e = false →
      validate_event iso e = .error .businessRule) := by
  cases hcf : checkFields e REQUIRED_FIELDS with
  | some err =>
    have hpt : check_presence_type e = false := by
      cases hb : REQUIRED_FIELDS.all (fieldOk e) with
      | false => exact hb
      | true =>
        rw [(checkFields_eq_none_iff e REQUIRED_FIELDS).mpr hb] at hcf
        cases hcf
    have hval : validate_event iso e = .error err := by
      unfold validate_event
      rw [hcf]
    obtain ⟨f, hf⟩ := checkFields_some_shape e REQUIRED_FIELDS err hcf
    refine ⟨by simp [hval, hpt], ?_, ?_, ?_, ?_, ?_, ?_⟩
    · intro _
      refine ⟨f, ?_⟩
      cases hf with
      | inl h => exact Or.inl (by rw [hval, h])
      | inr h => exact Or.inr (by rw [hval, h])
    all_goals (intro h; rw [hpt] at h; exact Bool.noConfusion h)
  | none =>
    have hpt : check_presence_type e = true :=
      (checkFields_eq_none_iff e REQUIRED_FIELDS).mp hcf
    have hv := validate_event_checks iso e hcf
    cases h2 : check_event_type e with
    | false =>
      have hval : validate_event iso e = .error .invalidEnum := by
        rw [hv]; simp [h2]
      refine ⟨by simp [hval, h2], ?_, ?_, ?_, ?_, ?_, ?_⟩ <;>
        intros <;> first | exact hval | simp_all
    | true =>
      cases h3 : check_trip_id e with
      | false =>
        have hval : validate_event iso e = .error (.invalidFormat "trip_id") := by
          rw [hv]; simp [h2, h3]
        refine ⟨by simp [hval, h3], ?_, ?_, ?_, ?_, ?_, ?_⟩ <;>
          intros <;> first | exact hval | simp_all
      | true =>
        cases h4 : check_timestamp iso e with
        | false =>
          have hval : validate_event iso e = .error (.invalidFormat "timestamp") := by
            rw [hv]; simp [h2, h3, h4]
          refine ⟨by simp [hval, h4], ?_, ?_, ?_, ?_, ?_, ?_⟩ <;>
            intros <;> first | exact hval | simp_all
        | true =>
          cases h5 : check_currency e with
          | false =>
            have hval : validate_event iso e = .error (.invalidFormat "currency_code") := by
              rw [hv]; simp [h2, h3, h4, h5]
            refine ⟨by simp [hval, h5], ?_, ?_, ?_, ?_, ?_, ?_⟩ <;>
              intros <;> first | exact hval | simp_all
          | true =>
            cases h6 : check_business e with
            | false =>
              have hval : validate_event iso e = .error .businessRule := by
                rw [hv]; simp [h2, h3, h4, h5, h6]
              refine ⟨by simp [hval, h6], ?_, ?_, ?_, ?_, ?_, ?_⟩ <;>
                intros <;> first | exact hval | simp_all
            | true =>
              have hval : validate_event iso e = .ok (.pyBool true) := by
                rw [hv]; simp [h2, h3, h4, h5, h6]
              refine ⟨by simp [hval, hpt, h2, h3, h4, h5, h6],
                ?_, ?_, ?_, ?_, ?_, ?_⟩ <;> intros <;> simp_all

/-- Witness for C1: on a concrete fully valid record, the six checks all
pass and the iff of the theorem yields success. -/
theorem C1_validate_fail_fast_witness : ∃ v, validate_event iso0 eValid = Except.ok v :=
  (C1_validate_fail_fast iso0 eValid).1.mpr
    (by refine ⟨?_, ?_, ?_, ?_, ?_, ?_⟩ <;> decide)

/-!
## Claim C2
-/

/-- A record that passes every check of validate_event although its city is
outside the supported set, its driver_id is the empty string, and its
currency pair corresponds to no entry of the lookup table. -/
def eAtlantis : Event :=
  [("event_type", .pyStr "trip_start"),
   ("trip_id", .pyStr "0123abcd-0000-4000-8000-000000000000"),
   ("driver_id", .pyStr ""),
   ("city", .pyStr "Atlantis"),
   ("timestamp", .pyStr "2024-03-07T12:00:00"),
   ("fare_amount", .pyInt 0),
   ("currency_code", .pyStr "XXX"),
   ("currency_symbol", .pyStr "")]

/-- C2 counterexample: validate_event accepts a record whose city is not in
the supported set (and has no lookup-table entry) and whose driver_id is
empty, so acceptance does not imply the §3 business invariants. -/
theorem C2_validated_invariants_cex :
    validate_event iso0 eAtlantis = .ok (.pyBool true) ∧
    ("Atlantis" ∈ CITIES → False) ∧
    lookupCity "Atlantis" = none ∧
    pyGet eAtlantis "city" = some (.pyStr "Atlantis") ∧
    pyGet eAtlantis "driver_id" = some (.pyStr "") :=
  ⟨rfl, by decide, rfl, rfl, rfl⟩

/-- Every key of the city table is in the supported-cities list. -/
theorem cityEntry_mem (idx : Fin 5) :
    (CITY_CONFIG.get ⟨idx.val, idx.isLt⟩).1 ∈ CITIES := by
  fin_cases idx <;> decide

/-- Looking a table key back up returns that entry's currency pair. -/
theorem cityEntry_lookup (idx : Fin 5) :
    lookupCity (CITY_CONFIG.get ⟨idx.val, idx.isLt⟩).1 =
      some ((CITY_CONFIG.get ⟨idx.val, idx.isLt⟩).2.1,
            (CITY_CONFIG.get ⟨idx.val, idx.isLt⟩).2.2) := by
  fin_cases idx <;> rfl

/-- C2 amended: the validator does not enforce the §3 business invariants
(city membership, city-determined currency pair, non-empty driver_id); the
invariants hold at generation time instead: for every outcome of its random
draws, each event produced by generate_trip_pair has a city in the
supported set, exactly the currency pair the fixed lookup table assigns to
that city, and a non-empty driver_id. -/
theorem C2_generator_invariants (trip_id : String) (n : Nat) (idx : Fin 5)
    (now : Int) (dur : Nat) (u : ℚ) :
    (generate_trip_pair trip_id n idx now dur u).1.city ∈ CITIES ∧
    (generate_trip_pair trip_id n idx now dur u).2.city ∈ CITIES ∧
    lookupCity (generate_trip_pair trip_id n idx now dur u).1.city =
      some ((generate_trip_pair trip_id n idx now dur u).1.currency_code,
            (generate_trip_pair trip_id n idx now dur u).1.currency_symbol) ∧
    lookupCity (generate_trip_pair trip_id n idx now dur u).2.city =
      some ((generate_trip_pair trip_id n idx now dur u).2.currency_code,
            (generate_trip_pair trip_id n idx now dur u).2.currency_symbol) ∧
    (generate_trip_pair trip_id n idx now dur u).1.driver_id ≠ "" ∧
    (generate_trip_pair trip_id n idx now dur u).2.driver_id ≠ "" := by
  have hd : ("d" ++ toString n) ≠ "" := by
    intro h
    have h2 := congrArg String.length h
    rw [String.length_append] at h2
    rw [show ("d" : String).length = 1 from rfl,
        show ("" : String).length = 0 from rfl] at h2
    omega
  exact ⟨cityEntry_mem idx, cityEntry_mem idx, cityEntry_lookup idx,
    cityEntry_lookup idx, hd, hd⟩

/-!
## Claim C3
-/

/-- C3 counterexample: on a fully valid record, validate_event's success
value is the Python boolean True (lambda_function.py line 66: `return
True`), which is not the validated record. -/
theorem C3_returns_record_cex :
    validate_event iso0 eValid = .ok (.pyBool true) ∧
    PyVal.pyBool true ≠ PyVal.pyDict eValid :=
  ⟨rfl, by simp⟩

/-- C3 amended: validate_event has no side effects (it is a pure function
of the record, which it only reads and never modifies), and on success its
return value is the boolean True — not the record itself. -/
theorem C3_success_value (iso : String → Bool) (e : Event) (v : PyVal)
    (h : validate_event iso e = .ok v) : v = .pyBool true := by
  unfold validate_event at h
  repeat' split at h
  all_goals simp_all

/-- Witness for C3 at a concrete valid record. -/
theorem C3_success_value_witness : PyVal.pyBool true = PyVal.pyBool true :=
  C3_success_value iso0 eValid (.pyBool true) rfl

/-!
## Claim C4
-/

/-- C4: derive_curated_location on the §8 example raw key succeeds and
returns the curated key with the prefix and extension rewritten, together
with the integer partition triple (2024, 3, 7) — the zero padding of month
and day is gone because the captures go through int(). -/
theorem C4_derive_example :
    derive_curated_location "raw/year=2024/month=03/day=07/abc123_trip_start.json" =
      .ok ("curated/year=2024/month=03/day=07/abc123_trip_start.parquet", 2024, 3, 7) :=
  rfl

/-!
## Helper lemmas: the partition search
-/

/-- Stripping a literal succeeds exactly on that literal followed by rest. -/
theorem dropPfx?_eq_some (p : List Char) :
    ∀ s r, dropPfx? p s = some r → s = p ++ r := by
  induction p with
  | nil =>
    intro s r h
    simp only [dropPfx?, Option.some.injEq] at h
    simp [h]
  | cons a ps ih =>
    intro s r h
    cases s with
    | nil => simp [dropPfx?] at h
    | cons c cs =>
      simp only [dropPfx?] at h
      by_cases hc : c = a
      · rw [if_pos hc] at h
        rw [hc, List.cons_append]
        exact congrArg (a :: ·) (ih cs r h)
      · rw [if_neg hc] at h
        cases h

/-- Stripping a literal off itself-plus-rest yields the rest. -/
theorem dropPfx?_append (p r : List Char) : dropPfx? p (p ++ r) = some r := by
  induction p with
  | nil => rfl
  | cons a ps ih => simp [dropPfx?, ih]

/-- Every character of the leading digit run is a digit. -/
theorem takeDigits_all (cs : List Char) : ∀ c ∈ takeDigits cs, c.isDigit = true := by
  induction cs with
  | nil => simp [takeDigits]
  | cons a rest ih =>
    intro c hc
    cases ha : a.isDigit with
    | true =>
      simp only [takeDigits, ha, if_true] at hc
      rcases List.mem_cons.mp hc with rfl | hc2
      · exact ha
      · exact ih c hc2
    | false =>
      simp only [takeDigits, ha] at hc
      simp at hc

/-- The leading digit run and its complement reassemble the input. -/
theorem takeDigits_append_dropDigits (cs : List Char) :
    takeDigits cs ++ dropDigits cs = cs := by
  induction cs with
  | nil => rfl
  | cons a rest ih =>
    cases ha : a.isDigit with
    | true => simp [takeDigits, dropDigits, ha, ih]
    | false => simp [takeDigits, dropDigits, ha]

/-- The spec's notion (§4.2 step 1) of a
`year=<digits>/month=<digits>/day=<digits>` segment sequence occurring
contiguously somewhere in a key. -/
def YMDoccurs (cs : List Char) : Prop :=
  ∃ pre y m d suf,
    cs = pre ++ yearLit ++ y ++ monthLit ++ m ++ dayLit ++ d ++ suf ∧
    y ≠ [] ∧ m ≠ [] ∧ d ≠ [] ∧
    (∀ c ∈ y, c.isDigit = true) ∧ (∀ c ∈ m, c.isDigit = true) ∧
    (∀ c ∈ d, c.isDigit = true)

/-- A successful anchored match exhibits an occurrence at the front. -/
theorem matchYMDAt_some_decomp (cs : List Char) (t : Nat × Nat × Nat)
    (h : matchYMDAt cs = some t) : YMDoccurs cs := by
  unfold matchYMDAt at h
  cases h1 : dropPfx? yearLit cs with
  | none => simp [h1] at h
  | some r1 =>
    simp only [h1] at h
    by_cases hy : takeDigits r1 = []
    · rw [if_pos hy] at h; cases h
    · rw [if_neg hy] at h
      cases h2 : dropPfx? monthLit (dropDigits r1) with
      | none => simp [h2] at h
      | some r2 =>
        simp only [h2] at h
        by_cases hm : takeDigits r2 = []
        · rw [if_pos hm] at h; cases h
        · rw [if_neg hm] at h
          cases h3 : dropPfx? dayLit (dropDigits r2) with
          | none => simp [h3] at h
          | some r3 =>
            simp only [h3] at h
            by_cases hd : takeDigits r3 = []
            · rw [if_pos hd] at h; cases h
            · refine ⟨[], takeDigits r1, takeDigits r2, takeDigits r3,
                dropDigits r3, ?_, hy, hm, hd,
                takeDigits_all r1, takeDigits_all r2, takeDigits_all r3⟩
              have e1 := dropPfx?_eq_some yearLit cs r1 h1
              have e2 := dropPfx?_eq_some monthLit (dropDigits r1) r2 h2
              have e3 := dropPfx?_eq_some dayLit (dropDigits r2) r3 h3
              subst e1
              rw [List.nil_append]
              conv_lhs => rw [← takeDigits_append_dropDigits r1]
              rw [e2]
              conv_lhs => rw [← takeDigits_append_dropDigits r2]
              rw [e3]
              conv_lhs => rw [← takeDigits_append_dropDigits r3]
              simp [List.append_assoc]

/-- Occurrences are stable under extending the key to the left. -/
theorem YMDoccurs_cons (c : Char) (cs : List Char) (h : YMDoccurs cs) :
    YMDoccurs (c :: cs) := by
  obtain ⟨pre, y, m, d, suf, heq, hy, hm, hd, hdy, hdm, hdd⟩ := h
  exact ⟨c :: pre, y, m, d, suf, by simp [heq], hy, hm, hd, hdy, hdm, hdd⟩

/-- A successful regex search exhibits an occurrence somewhere in the key. -/
theorem searchYMD_some_occurs (cs : List Char) (t : Nat × Nat × Nat)
    (h : searchYMD cs = some t) : YMDoccurs cs := by
  induction cs with
  | nil => simp [searchYMD] at h
  | cons a rest ih =>
    unfold searchYMD at h
    cases hm : matchYMDAt (a :: rest) with
    | some t2 => exact matchYMDAt_some_decomp _ t2 hm
    | none =>
      simp only [hm] at h
      exact YMDoccurs_cons a rest (ih h)

/-- A prefix occurrence is an occurrence. -/
theorem containsSub_of_hasPfx (p s : List Char) (h : hasPfx p s = true) :
    containsSub p s = true := by
  cases s with
  | nil => exact h
  | cons c rest => simp [containsSub, h]

/-- The pattern occurs in any string of the shape pre ++ p ++ r. -/
theorem containsSub_of_append (p pre r : List Char) :
    containsSub p (pre ++ (p ++ r)) = true := by
  induction pre with
  | nil =>
    rw [List.nil_append]
    exact containsSub_of_hasPfx p (p ++ r) (by simp [hasPfx, dropPfx?_append])
  | cons a pre' ih =>
    rw [List.cons_append]
    simp [containsSub, ih]

/-- Any year/month/day occurrence contains the literal "year=". -/
theorem YMDoccurs_contains (cs : List Char) (h : YMDoccurs cs) :
    containsSub yearLit cs = true := by
  obtain ⟨pre, y, m, d, suf, heq, -, -, -, -, -, -⟩ := h
  rw [heq]
  have := containsSub_of_append yearLit pre
    (y ++ monthLit ++ m ++ dayLit ++ d ++ suf)
  simpa [List.append_assoc] using this

/-!
## Claim C5
-/

/-- C5: for every raw key in which no year=digits/month=digits/day=digits
segment sequence occurs, derive_curated_location fails with the
malformed-path error (the ValueError of lambda_function.py line 80) rather
than returning a result. -/
theorem C5_no_ymd_malformed (key : String) (h : ¬ YMDoccurs key.data) :
    derive_curated_location key = .error .malformedPath := by
  unfold derive_curated_location
  cases hs : searchYMD key.data with
  | none => rfl
  | some t => exact absurd (searchYMD_some_occurs _ t hs) h

/-- Witness for C5 on a key with no partition segments. -/
theorem C5_no_ymd_malformed_witness :
    derive_curated_location "foo/bar.json" = .error .malformedPath :=
  C5_no_ymd_malformed "foo/bar.json"
    (fun h => absurd (YMDoccurs_contains _ h) (by decide))

/-!
## Helper lemmas: Python replace-all semantics
-/

/-- The fuel argument of replaceAllGo is irrelevant once it covers the
input length. -/
theorem replaceAllGo_fuel (p : Char) (ps repl : List Char) :
    ∀ fuel s, s.length ≤ fuel →
      replaceAllGo p ps repl fuel s = replaceAllGo p ps repl s.length s := by
  intro fuel
  induction fuel using Nat.strong_induction_on with
  | _ fuel ih =>
    cases fuel with
    | zero =>
      intro s hs
      rw [List.length_eq_zero.mp (Nat.le_zero.mp hs)]
      rfl
    | succ f =>
      intro s hs
      cases s with
      | nil => rfl
      | cons c rest =>
        have hr : rest.length ≤ f := by
          simpa using hs
        simp only [List.length_cons, replaceAllGo]
        by_cases hc : c = p ∧ hasPfx ps rest = true
        · rw [if_pos hc, if_pos hc]
          have hd : (List.drop ps.length rest).length ≤ rest.length := by
            rw [List.length_drop]; omega
          rw [ih f (by omega) _ (le_trans hd hr),
            ih rest.length (by omega) _ hd]
        · rw [if_neg hc, if_neg hc, ih f (by omega) rest hr]

/-- Unfolding a literal prefix test one character at a time. -/
theorem hasPfx_cons (p c : Char) (ps rest : List Char) :
    hasPfx (p :: ps) (c :: rest) = true ↔ (c = p ∧ hasPfx ps rest = true) := by
  simp only [hasPfx, dropPfx?]
  by_cases hc : c = p
  · simp [hc]
  · simp [hc]

/-- Python replace walks past a position where the pattern does not start. -/
theorem replaceAll_cons_neg (p c : Char) (ps repl rest : List Char)
    (h : hasPfx (p :: ps) (c :: rest) = false) :
    replaceAll p ps repl (c :: rest) = c :: replaceAll p ps repl rest := by
  have hc : ¬(c = p ∧ hasPfx ps rest = true) := by
    intro hcc
    rw [(hasPfx_cons p c ps rest).mpr hcc] at h
    cases h
  unfold replaceAll
  simp only [List.length_cons, replaceAllGo]
  rw [if_neg hc]

/-- Python replace rewrites a pattern occurrence at the head and continues
after it (non-overlapping, left to right). -/
theorem replaceAll_head (p : Char) (ps repl s : List Char) :
    replaceAll p ps repl ((p :: ps) ++ s) = repl ++ replaceAll p ps repl s := by
  unfold replaceAll
  simp only [List.cons_append, List.length_cons, replaceAllGo]
  split
  next =>
    simp only [List.append_eq]
    rw [List.drop_left]
    congr 1
    exact replaceAllGo_fuel p ps repl (ps ++ s).length s
      (by simp [List.length_append])
  next hcond =>
    exact absurd ⟨by trivial, by simp [hasPfx, dropPfx?_append]⟩ hcond

/-- Python replace is the identity on a string with no occurrence of the
pattern. -/
theorem replaceAll_no_occ (p : Char) (ps repl : List Char) :
    ∀ s, containsSub (p :: ps) s = false → replaceAll p ps repl s = s := by
  intro s
  induction s with
  | nil => intro _; rfl
  | cons c rest ih =>
    intro h
    have h1 : hasPfx (p :: ps) (c :: rest) = false := by
      cases hx : hasPfx (p :: ps) (c :: rest) with
      | false => rfl
      | true => rw [containsSub, hx] at h; simp at h
    have h2 : containsSub (p :: ps) rest = false := by
      cases hx : containsSub (p :: ps) rest with
      | false => rfl
      | true => rw [containsSub, hx] at h; simp at h
    rw [replaceAll_cons_neg p c ps repl rest h1, ih h2]

/-- A prefix test against an extended string restricts to the left part
when the pattern fits inside it. -/
theorem hasPfx_append_left (q : List Char) :
    ∀ s t, q.length ≤ s.length → hasPfx q (s ++ t) = true →
      hasPfx q s = true := by
  induction q with
  | nil =>
    intro s t _ _
    simp [hasPfx, dropPfx?]
  | cons a qs ih =>
    intro s t hlen hq
    cases s with
    | nil => simp at hlen
    | cons c rest =>
      rw [List.cons_append, hasPfx_cons] at hq
      rw [hasPfx_cons]
      exact ⟨hq.1, ih rest t (by simpa using hlen) hq.2⟩

/-- A suffix of the tail is a suffix of the whole list. -/
theorem isSfx_cons (t : List Char) (c : Char) (s : List Char)
    (h : isSfx t s = true) : isSfx t (c :: s) = true := by
  simp [isSfx, h]

/-- Python replace on a string that ends with the pattern and contains no
other occurrence (and no suffix of the front part starts an occurrence
overlapping into the final pattern) rewrites exactly that final
occurrence. -/
theorem replaceAll_append_pat (p : Char) (ps repl : List Char) :
    ∀ s, containsSub (p :: ps) s = false →
      (∀ s1 : List Char, isSfx s1 s = true → 0 < s1.length →
        s1.length < (p :: ps).length →
        hasPfx (p :: ps) (s1 ++ (p :: ps)) = false) →
      replaceAll p ps repl (s ++ (p :: ps)) = s ++ repl := by
  intro s
  induction s with
  | nil =>
    intro _ _
    have h0 := replaceAll_head p ps repl []
    rw [List.append_nil] at h0
    simpa [replaceAll, replaceAllGo] using h0
  | cons c rest ih =>
    intro hc hst
    have hcr : containsSub (p :: ps) rest = false := by
      cases hx : containsSub (p :: ps) rest with
      | false => rfl
      | true => rw [containsSub, hx] at hc; simp at hc
    have h1 : hasPfx (p :: ps) ((c :: rest) ++ (p :: ps)) = false := by
      by_cases hlen : (c :: rest).length < (p :: ps).length
      · exact hst (c :: rest) (by simp [isSfx]) (by simp) hlen
      · cases hx : hasPfx (p :: ps) ((c :: rest) ++ (p :: ps)) with
        | false => rfl
        | true =>
          exfalso
          have hpfx : hasPfx (p :: ps) (c :: rest) = true :=
            hasPfx_append_left (p :: ps) (c :: rest) (p :: ps) (by omega) hx
          rw [containsSub_of_hasPfx _ _ hpfx] at hc
          cases hc
    rw [List.cons_append] at h1 ⊢
    rw [replaceAll_cons_neg p c ps repl (rest ++ (p :: ps)) h1]
    rw [ih hcr (fun s1 hs hp hl => hst s1 (isSfx_cons s1 c rest hs) hp hl)]
    rw [List.cons_append]

/-- No nonempty proper chunk glued before ".json" can start a ".json"
occurrence that overlaps into it: the pattern has no period shorter than
its length. -/
theorem json_nostraddle (s1 : List Char) (h0 : 0 < s1.length)
    (h5 : s1.length < 5) :
    hasPfx ('.' :: "json".data) (s1 ++ ('.' :: "json".data)) = false := by
  have hj : ("json".data : List Char) = 'j' :: 's' :: 'o' :: 'n' :: [] := rfl
  rw [hj]
  rcases s1 with _ | ⟨a, _ | ⟨b, _ | ⟨c, _ | ⟨d, rest⟩⟩⟩⟩
  · simp at h0
  · simp only [List.cons_append, List.nil_append]
    refine Bool.eq_false_iff.mpr fun hx => ?_
    rw [hasPfx_cons] at hx
    exact absurd hx.2 (by decide)
  · simp only [List.cons_append, List.nil_append]
    refine Bool.eq_false_iff.mpr fun hx => ?_
    rw [hasPfx_cons] at hx
    obtain ⟨-, hx⟩ := hx
    rw [hasPfx_cons] at hx
    exact absurd hx.2 (by decide)
  · simp only [List.cons_append, List.nil_append]
    refine Bool.eq_false_iff.mpr fun hx => ?_
    rw [hasPfx_cons] at hx
    obtain ⟨-, hx⟩ := hx
    rw [hasPfx_cons] at hx
    obtain ⟨-, hx⟩ := hx
    rw [hasPfx_cons] at hx
    exact absurd hx.2 (by decide)
  · cases rest with
    | cons x xs =>
      exfalso
      simp only [List.length_cons] at h5
      omega
    | nil =>
      simp only [List.cons_append, List.nil_append]
      refine Bool.eq_false_iff.mpr fun hx => ?_
      rw [hasPfx_cons] at hx
      obtain ⟨-, hx⟩ := hx
      rw [hasPfx_cons] at hx
      obtain ⟨-, hx⟩ := hx
      rw [hasPfx_cons] at hx
      obtain ⟨-, hx⟩ := hx
      rw [hasPfx_cons] at hx
      exact absurd hx.2 (by decide)

/-!
## Claim C6
-/

/-- C6 counterexample: Python str.replace rewrites every occurrence, so a
key whose inner segments contain "raw/" is not preserved verbatim there —
the derived key rewrites the inner "raw/" too, instead of the
"curated/a/raw/b.parquet" the claim predicts. -/
theorem C6_inner_occurrences_cex :
    curated_key "raw/a/raw/b.json" = "curated/a/curated/b.parquet" ∧
    curated_key "raw/a/raw/b.json" ≠ "curated/a/raw/b.parquet" :=
  ⟨rfl, by decide⟩

/-- C6 amended: the rewrite replaces every occurrence of "raw/" and of
".json", not only the leading prefix and the trailing extension; when the
leading "raw/" and the trailing ".json" are the only occurrences in the
key, every other character is preserved verbatim. -/
theorem C6_rewrite_preserves (mid : List Char)
    (h1 : containsSub ('r' :: "aw/".data) (mid ++ ('.' :: "json".data)) = false)
    (h2 : containsSub ('.' :: "json".data) ("curated/".data ++ mid) = false) :
    curatedList (('r' :: "aw/".data) ++ mid ++ ('.' :: "json".data)) =
      "curated/".data ++ mid ++ ".parquet".data := by
  unfold curatedList
  rw [List.append_assoc]
  rw [replaceAll_head 'r' "aw/".data "curated/".data (mid ++ ('.' :: "json".data))]
  rw [replaceAll_no_occ 'r' "aw/".data "curated/".data _ h1]
  rw [← List.append_assoc]
  rw [replaceAll_append_pat '.' "json".data ".parquet".data
    ("curated/".data ++ mid) h2
    (fun s1 _ hp hl => json_nostraddle s1 hp (by
      have h5 : ('.' :: "json".data).length = 5 := rfl
      omega))]

/-- Witness for C6 on a key whose middle contains no other occurrence of
either pattern. -/
theorem C6_rewrite_preserves_witness :
    curatedList (('r' :: "aw/".data) ++ "year=2024/x".data ++ ('.' :: "json".data)) =
      "curated/".data ++ "year=2024/x".data ++ ".parquet".data :=
  C6_rewrite_preserves "year=2024/x".data (by decide) (by decide)

/-!
## Claim C7
-/

/-- A record whose fare_amount is the Python boolean True and whose
event_type is trip_end; every other field is valid. -/
def eBoolFare : Event :=
  [("event_type", .pyStr "trip_end"),
   ("trip_id", .pyStr "0123abcd-0000-4000-8000-000000000000"),
   ("driver_id", .pyStr "d7"),
   ("city", .pyStr "London"),
   ("timestamp", .pyStr "2024-03-07T12:00:00"),
   ("fare_amount", .pyBool true),
   ("currency_code", .pyStr "GBP"),
   ("currency_symbol", .pyStr "£")]

/-- The same record with a string fare_amount instead. -/
def eStrFare : Event :=
  [("event_type", .pyStr "trip_end"),
   ("trip_id", .pyStr "0123abcd-0000-4000-8000-000000000000"),
   ("driver_id", .pyStr "d7"),
   ("city", .pyStr "London"),
   ("timestamp", .pyStr "2024-03-07T12:00:00"),
   ("fare_amount", .pyStr "10"),
   ("currency_code", .pyStr "GBP"),
   ("currency_symbol", .pyStr "£")]

/-- C7: because Python's bool is a subclass of int,
`isinstance(True, (int, float))` holds, so a boolean fare_amount passes the
presence-and-type check — and with event_type trip_end (True counts as 1 in
the comparison with 0) the whole validation succeeds — contrary to the
spec, which requires a TypeMismatchError for booleans.  A string
fare_amount is rejected with the type-mismatch error as specified. -/
theorem C7_bool_fare_passes_type_check :
    checkFields eBoolFare REQUIRED_FIELDS = none ∧
    validate_event iso0 eBoolFare = .ok (.pyBool true) ∧
    validate_event iso0 eStrFare = .error (.typeMismatch "fare_amount") :=
  ⟨rfl, rfl, rfl⟩

/-!
## Claim C9
-/

/-- C9: error handling in the processor is not atomic with respect to the
curated store: for a trigger whose decoded body passes validation but whose
key lacks the year=/month=/day= segments, the handler writes the curated
object before partition extraction fails, so it returns 500 while the
curated object has been persisted (no rollback). -/
theorem C9_handler_not_atomic (iso : String → Bool) (key : String) (data : Event)
    (hv : ∃ v, validate_event iso data = Except.ok v)
    (hk : searchYMD key.data = none) :
    (lambda_handler_model iso key data).statusCode = 500 ∧
    curated_key key ∈ (lambda_handler_model iso key data).curatedWrites := by
  obtain ⟨v, hv⟩ := hv
  simp [lambda_handler_model, hv, hk]

/-- Witness for C9: a valid record arriving under a key without partition
segments. -/
theorem C9_handler_not_atomic_witness :
    (lambda_handler_model iso0 "foo/bar.json" eValid).statusCode = 500 ∧
    curated_key "foo/bar.json" ∈
      (lambda_handler_model iso0 "foo/bar.json" eValid).curatedWrites :=
  C9_handler_not_atomic iso0 "foo/bar.json" eValid ⟨.pyBool true, rfl⟩ rfl

/-!
## Helper lemmas: rounding
-/

/-- Round-half-to-even stays within half a unit of its argument. -/
theorem roundHalfEven_bounds (q : ℚ) :
    q - 1/2 ≤ (roundHalfEven q : ℚ) ∧ (roundHalfEven q : ℚ) ≤ q + 1/2 := by
  unfold roundHalfEven
  have hfl : (⌊q⌋ : ℚ) ≤ q := Int.floor_le q
  have hfu : q < ⌊q⌋ + 1 := Int.lt_floor_add_one q
  by_cases h1 : q - ⌊q⌋ < 1/2
  · rw [if_pos h1]
    constructor <;> linarith
  · rw [if_neg h1]
    have h1' : (1 : ℚ)/2 ≤ q - ⌊q⌋ := not_lt.mp h1
    by_cases h2 : (1 : ℚ)/2 < q - ⌊q⌋
    · rw [if_pos h2]
      constructor <;> push_cast <;> linarith
    · rw [if_neg h2]
      have h3 : q - ⌊q⌋ = 1/2 := le_antisymm (not_lt.mp h2) h1'
      by_cases h4 : ⌊q⌋ % 2 = 0
      · rw [if_pos h4]
        constructor <;> linarith
      · rw [if_neg h4]
        constructor <;> push_cast <;> linarith

/-- Python round(u, 2) of a value in [5, 50] is in [5, 50] and is an exact
multiple of 1/100. -/
theorem pyRound2_bounds (u : ℚ) (h1 : 5 ≤ u) (h2 : u ≤ 50) :
    5 ≤ pyRound2 u ∧ pyRound2 u ≤ 50 ∧
      ∃ k : ℤ, pyRound2 u * 100 = (k : ℚ) := by
  obtain ⟨hl, hr⟩ := roundHalfEven_bounds (u * 100)
  have hlo : (500 : ℤ) ≤ roundHalfEven (u * 100) := by
    have hq : (499 : ℚ) < (roundHalfEven (u * 100) : ℚ) := by linarith
    have hz : (499 : ℤ) < roundHalfEven (u * 100) := by exact_mod_cast hq
    omega
  have hhi : roundHalfEven (u * 100) ≤ (5000 : ℤ) := by
    have hq : (roundHalfEven (u * 100) : ℚ) < 5001 := by linarith
    have hz : roundHalfEven (u * 100) < (5001 : ℤ) := by exact_mod_cast hq
    omega
  have hcl : (500 : ℚ) ≤ (roundHalfEven (u * 100) : ℚ) := by exact_mod_cast hlo
  have hch : ((roundHalfEven (u * 100) : ℚ)) ≤ 5000 := by exact_mod_cast hhi
  refine ⟨?_, ?_, ⟨roundHalfEven (u * 100), ?_⟩⟩
  · rw [pyRound2]
    linarith
  · rw [pyRound2]
    linarith
  · rw [pyRound2]
    exact div_mul_cancel₀ _ (by norm_num)

/-!
## Claim C8
-/

/-- C8: for every outcome of the random draws (driver number, city index,
duration in [5, 45] minutes, uniform fare draw in [5, 50]),
generate_trip_pair returns a pair in which both events share trip_id,
driver_id, city, currency_code and currency_symbol; the end timestamp is
the start timestamp plus an integral number of minutes in [5, 45] (hence
strictly later); the start fare is exactly 0; the end fare lies in [5, 50]
with at most two decimal places; and the currency pair is the lookup-table
entry for the chosen city. -/
theorem C8_generate_trip_pair (trip_id : String) (n : Nat) (idx : Fin 5)
    (now : Int) (dur : Nat) (u : ℚ)
    (hd1 : 5 ≤ dur) (hd2 : dur ≤ 45) (hu1 : 5 ≤ u) (hu2 : u ≤ 50) :
    (generate_trip_pair trip_id n idx now dur u).1.trip_id =
      (generate_trip_pair trip_id n idx now dur u).2.trip_id ∧
    (generate_trip_pair trip_id n idx now dur u).1.driver_id =
      (generate_trip_pair trip_id n idx now dur u).2.driver_id ∧
    (generate_trip_pair trip_id n idx now dur u).1.city =
      (generate_trip_pair trip_id n idx now dur u).2.city ∧
    (generate_trip_pair trip_id n idx now dur u).1.currency_code =
      (generate_trip_pair trip_id n idx now dur u).2.currency_code ∧
    (generate_trip_pair trip_id n idx now dur u).1.currency_symbol =
      (generate_trip_pair trip_id n idx now dur u).2.currency_symbol ∧
    (∃ mns : Nat, 5 ≤ mns ∧ mns ≤ 45 ∧
      (generate_trip_pair trip_id n idx now dur u).2.timestamp =
        (generate_trip_pair trip_id n idx now dur u).1.timestamp + 60 * (mns : Int)) ∧
    (generate_trip_pair trip_id n idx now dur u).1.timestamp <
      (generate_trip_pair trip_id n idx now dur u).2.timestamp ∧
    (generate_trip_pair trip_id n idx now dur u).1.fare_amount = 0 ∧
    5 ≤ (generate_trip_pair trip_id n idx now dur u).2.fare_amount ∧
    (generate_trip_pair trip_id n idx now dur u).2.fare_amount ≤ 50 ∧
    (∃ k : ℤ,
      (generate_trip_pair trip_id n idx now dur u).2.fare_amount * 100 = (k : ℚ)) ∧
    lookupCity (generate_trip_pair trip_id n idx now dur u).2.city =
      some ((generate_trip_pair trip_id n idx now dur u).2.currency_code,
            (generate_trip_pair trip_id n idx now dur u).2.currency_symbol) := by
  obtain ⟨hf1, hf2, hf3⟩ := pyRound2_bounds u hu1 hu2
  refine ⟨rfl, rfl, rfl, rfl, rfl, ⟨dur, hd1, hd2, rfl⟩, ?_, rfl, hf1, hf2, hf3,
    cityEntry_lookup idx⟩
  show now < now + 60 * (dur : Int)
  omega

/-- Witness for C8 at a concrete outcome of the random draws. -/
theorem C8_generate_trip_pair_witness :
    (generate_trip_pair "t0" 7 0 1000 10 20).1.trip_id =
      (generate_trip_pair "t0" 7 0 1000 10 20).2.trip_id ∧
    (generate_trip_pair "t0" 7 0 1000 10 20).1.driver_id =
      (generate_trip_pair "t0" 7 0 1000 10 20).2.driver_id ∧
    (generate_trip_pair "t0" 7 0 1000 10 20).1.city =
      (generate_trip_pair "t0" 7 0 1000 10 20).2.city ∧
    (generate_trip_pair "t0" 7 0 1000 10 20).1.currency_code =
      (generate_trip_pair "t0" 7 0 1000 10 20).2.currency_code ∧
    (generate_trip_pair "t0" 7 0 1000 10 20).1.currency_symbol =
      (generate_trip_pair "t0" 7 0 1000 10 20).2.currency_symbol ∧
    (∃ mns : Nat, 5 ≤ mns ∧ mns ≤ 45 ∧
      (generate_trip_pair "t0" 7 0 1000 10 20).2.timestamp =
        (generate_trip_pair "t0" 7 0 1000 10 20).1.timestamp + 60 * (mns : Int)) ∧
    (generate_trip_pair "t0" 7 0 1000 10 20).1.timestamp <
      (generate_trip_pair "t0" 7 0 1000 10 20).2.timestamp ∧
    (generate_trip_pair "t0" 7 0 1000 10 20).1.fare_amount = 0 ∧
    5 ≤ (generate_trip_pair "t0" 7 0 1000 10 20).2.fare_amount ∧
    (generate_trip_pair "t0" 7 0 1000 10 20).2.fare_amount ≤ 50 ∧
    (∃ k : ℤ,
      (generate_trip_pair "t0" 7 0 1000 10 20).2.fare_amount * 100 = (k : ℚ)) ∧
    lookupCity (generate_trip_pair "t0" 7 0 1000 10 20).2.city =
      some ((generate_trip_pair "t0" 7 0 1000 10 20).2.currency_code,
            (generate_trip_pair "t0" 7 0 1000 10 20).2.currency_symbol) :=
  C8_generate_trip_pair "t0" 7 0 1000 10 20 (by omega) (by omega)
    (by norm_num) (by norm_num)

/-!
## Helper lemmas: exact search semantics
-/

/-- The input does not begin with a digit (so a digit run ending against it
is maximal). -/
def headDigitFree : List Char → Bool
  | [] => true
  | c :: _ => !c.isDigit

/-- A digit run followed by a non-digit-leading rest splits exactly there. -/
theorem takeDigits_append (y rest : List Char)
    (hy : ∀ c ∈ y, c.isDigit = true) (hr : headDigitFree rest = true) :
    takeDigits (y ++ rest) = y ∧ dropDigits (y ++ rest) = rest := by
  induction y with
  | nil =>
    simp only [List.nil_append]
    cases rest with
    | nil => exact ⟨rfl, rfl⟩
    | cons c cs =>
      have hc : c.isDigit = false := by
        simpa [headDigitFree] using hr
      exact ⟨by simp [takeDigits, hc], by simp [dropDigits, hc]⟩
  | cons a y' ih =>
    have ha : a.isDigit = true := hy a (List.mem_cons_self a y')
    obtain ⟨ih1, ih2⟩ := ih fun c hc => hy c (List.mem_cons_of_mem a hc)
    exact ⟨by simp [takeDigits, ha, ih1], by simp [dropDigits, ha, ih2]⟩

/-- The anchored matcher on an exact occurrence returns precisely the
decimal values of its three digit runs. -/
theorem matchYMDAt_exact (y m d suf : List Char)
    (hy0 : y ≠ []) (hm0 : m ≠ []) (hd0 : d ≠ [])
    (hy : ∀ c ∈ y, c.isDigit = true) (hm : ∀ c ∈ m, c.isDigit = true)
    (hd : ∀ c ∈ d, c.isDigit = true)
    (hsuf : headDigitFree suf = true) :
    matchYMDAt (yearLit ++ (y ++ (monthLit ++ (m ++ (dayLit ++ (d ++ suf)))))) =
      some (digitsToNat y, digitsToNat m, digitsToNat d) := by
  obtain ⟨ty, dy⟩ := takeDigits_append y (monthLit ++ (m ++ (dayLit ++ (d ++ suf))))
    hy (by rfl)
  obtain ⟨tm, dm⟩ := takeDigits_append m (dayLit ++ (d ++ suf)) hm (by rfl)
  obtain ⟨td, dd⟩ := takeDigits_append d suf hd hsuf
  unfold matchYMDAt
  simp only [dropPfx?_append]
  rw [ty, dy, if_neg hy0]
  simp only [dropPfx?_append]
  rw [tm, dm, if_neg hm0]
  simp only [dropPfx?_append]
  rw [td, if_neg hd0]

/-- If the pattern matches somewhere, the search succeeds. -/
theorem searchYMD_append_isSome (body : List Char)
    (hb : (matchYMDAt body).isSome = true) :
    ∀ pre, (searchYMD (pre ++ body)).isSome = true := by
  intro pre
  induction pre with
  | nil =>
    rw [List.nil_append]
    cases body with
    | nil => exact absurd hb (by decide)
    | cons c rest =>
      unfold searchYMD
      cases hmm : matchYMDAt (c :: rest) with
      | some t => simp only [hmm]; rfl
      | none => rw [hmm] at hb; exact absurd hb (by decide)
  | cons a pre' ih =>
    rw [List.cons_append]
    unfold searchYMD
    cases hmm : matchYMDAt (a :: (pre' ++ body)) with
    | some t => simp only [hmm]; rfl
    | none => simp only [hmm]; exact ih

/-- The search returns the match at the first position where the anchored
matcher succeeds. -/
theorem searchYMD_first (body : List Char) (t : Nat × Nat × Nat)
    (hb : matchYMDAt body = some t) :
    ∀ pre, (∀ j, j < pre.length → matchYMDAt ((pre ++ body).drop j) = none) →
      searchYMD (pre ++ body) = some t := by
  intro pre
  induction pre with
  | nil =>
    intro _
    rw [List.nil_append]
    cases body with
    | nil =>
      have h0 : matchYMDAt ([] : List Char) = none := rfl
      rw [h0] at hb
      cases hb
    | cons c rest =>
      unfold searchYMD
      simp only [hb]
  | cons a pre' ih =>
    intro hfirst
    rw [List.cons_append]
    unfold searchYMD
    have h0 : matchYMDAt (a :: (pre' ++ body)) = none := by
      have h := hfirst 0 (by simp)
      simpa using h
    simp only [h0]
    exact ih fun j hj => by
      have h := hfirst (j + 1) (by simpa using Nat.succ_lt_succ hj)
      simpa [List.drop_succ_cons] using h

/-!
## Claim C10
-/

/-- C10: partition extraction is an unanchored substring search: for every
key containing the contiguous pattern year=digits/month=digits/day=digits
anywhere — any position, any number of digits, no zero padding — the search
succeeds; and when the exhibited occurrence is the first one (no earlier
position matches) and its day run is maximal (the following character is
not a digit), the result is exactly the decimal values of that occurrence's
digit runs. -/
theorem C10_search_substring (pre y m d suf : List Char)
    (hy0 : y ≠ []) (hm0 : m ≠ []) (hd0 : d ≠ [])
    (hy : ∀ c ∈ y, c.isDigit = true) (hm : ∀ c ∈ m, c.isDigit = true)
    (hd : ∀ c ∈ d, c.isDigit = true) :
    ((searchYMD (pre ++ (yearLit ++ (y ++ (monthLit ++ (m ++ (dayLit ++ (d ++ suf)))))))).isSome
        = true) ∧
    ((∀ j, j < pre.length →
        matchYMDAt ((pre ++ (yearLit ++ (y ++ (monthLit ++ (m ++ (dayLit ++ (d ++ suf))))))).drop j)
          = none) →
      headDigitFree suf = true →
      searchYMD (pre ++ (yearLit ++ (y ++ (monthLit ++ (m ++ (dayLit ++ (d ++ suf))))))) =
        some (digitsToNat y, digitsToNat m, digitsToNat d)) := by
  constructor
  · apply searchYMD_append_isSome
    obtain ⟨ty, dy⟩ := takeDigits_append y (monthLit ++ (m ++ (dayLit ++ (d ++ suf))))
      hy (by rfl)
    obtain ⟨tm, dm⟩ := takeDigits_append m (dayLit ++ (d ++ suf)) hm (by rfl)
    unfold matchYMDAt
    simp only [dropPfx?_append]
    rw [ty, dy, if_neg hy0]
    simp only [dropPfx?_append]
    rw [tm, dm, if_neg hm0]
    simp only [dropPfx?_append]
    have hdd : takeDigits (d ++ suf) ≠ [] := by
      cases d with
      | nil => exact absurd rfl hd0
      | cons c cs =>
        have hc : c.isDigit = true := hd c (List.mem_cons_self c cs)
        simp [takeDigits, hc]
    rw [if_neg hdd]
    rfl
  · intro hfirst hsuf
    exact searchYMD_first _ _
      (matchYMDAt_exact y m d suf hy0 hm0 hd0 hy hm hd hsuf) pre hfirst

/-- Witness for C10 on a concrete key with an off-grid, unpadded
occurrence. -/
theorem C10_search_substring_witness :
    ((searchYMD ("x/".data ++ (yearLit ++ (['1', '2'] ++ (monthLit ++ (['3'] ++ (dayLit ++ (['4'] ++ "/z".data)))))))).isSome
        = true) ∧
    ((∀ j, j < "x/".data.length →
        matchYMDAt (("x/".data ++ (yearLit ++ (['1', '2'] ++ (monthLit ++ (['3'] ++ (dayLit ++ (['4'] ++ "/z".data))))))).drop j)
          = none) →
      headDigitFree "/z".data = true →
      searchYMD ("x/".data ++ (yearLit ++ (['1', '2'] ++ (monthLit ++ (['3'] ++ (dayLit ++ (['4'] ++ "/z".data))))))) =
        some (digitsToNat ['1', '2'], digitsToNat ['3'], digitsToNat ['4'])) :=
  C10_search_substring "x/".data ['1', '2'] ['3'] ['4'] "/z".data
    (by decide) (by decide) (by decide) (by decide) (by decide) (by decide)
